import Mathlib

/-!
Verification of the ZYouTube asynchronous job tracker and its frontend
polling client.  The frontend TypeScript sources (`frontend/src/lib/api.ts`,
the React `App` component, `frontend/src/types/api.ts`) are embedded
shallowly: JavaScript strings become lists of characters, fallible calls
become `Except`, and the poller's effect on component state becomes an
explicit state-transition function.  The backend job store described by the
specification is not part of the checked sources, so it is modelled from the
specification where a claim needs it; every such definition is marked
`Modelled from the spec:` in its documentation.
-/

namespace ZYouTube

/-- JavaScript strings are embedded as lists of characters. -/
abbrev Str := List Char

/-! ## `frontend/src/lib/api.ts`

The file contains two concatenated variants of the same module: the first
computes `normalizedBase` from `API_BASE_URL` alone, the second
(`dev-mode` variant) uses an empty base in development so that Vite can
proxy relative paths.  Both share `ensureLeadingSlash` and the
case-insensitive test `/^https?:\/\//i`. -/

/-- One pattern character of the case-insensitive regex
`/^https?:\/\//i` matches an input character: either literally or after
lowercasing the input (the pattern itself is lowercase). -/
def charEqCI (pat c : Char) : Bool :=
  pat == c || pat == Char.toLower c

/-- Case-insensitive prefix test used to embed `/^https?:\/\//i.test(path)`. -/
def prefixOfCI : Str → Str → Bool
  | [], _ => true
  | _ :: _, [] => false
  | p :: ps, c :: cs => charEqCI p c && prefixOfCI ps cs

/-- The pattern `http://` of the scheme regex. -/
def httpPat : Str := ['h', 't', 't', 'p', ':', '/', '/']

/-- The pattern `https://` of the scheme regex. -/
def httpsPat : Str := ['h', 't', 't', 'p', 's', ':', '/', '/']

/-- Embeds `/^https?:\/\//i.test(path)`: the optional `s?` makes the regex an
alternation of the two concrete prefixes. -/
def matchesHttp (p : Str) : Bool :=
  prefixOfCI httpPat p || prefixOfCI httpsPat p

/-- Embeds `API_BASE_URL.replace(/\/$/, "")`: removes a single trailing slash
when one is present. -/
def stripTrailingSlash : Str → Str
  | [] => []
  | ['/'] => []
  | c :: rest => c :: stripTrailingSlash rest

/-- Embeds `path.startsWith("/") ? path : "/" + path`. -/
def ensureLeadingSlash (p : Str) : Str :=
  if p.head? = some '/' then p else '/' :: p

/-- The `buildApiUrl` of the first variant of `api.ts`; `base` stands for
the module-level constant `API_BASE_URL`, of which the source computes
`normalizedBase` once. -/
def buildApiUrl (base p : Str) : Str :=
  if matchesHttp p then p
  else stripTrailingSlash base ++ ensureLeadingSlash p

/-- The default base URL `"http://localhost:8866"` used when
`VITE_API_BASE_URL` is not configured. -/
def defaultBase : Str :=
  ['h', 't', 't', 'p', ':', '/', '/', 'l', 'o', 'c', 'a', 'l', 'h', 'o',
   's', 't', ':', '8', '8', '6', '6']

/-- The `buildApiUrl` of the second (dev-mode) variant of `api.ts`: when
`isDev` holds the normalized base is the empty string and the function
returns `ensureLeadingSlash path`; otherwise it behaves like the first
variant over `apiBaseUrl ?? "http://localhost:8866"`. -/
def buildApiUrlV2 (isDev : Bool) (apiBaseUrl : Option Str) (p : Str) : Str :=
  if matchesHttp p then p
  else if isDev then ensureLeadingSlash p
  else stripTrailingSlash (apiBaseUrl.getD defaultBase) ++ ensureLeadingSlash p

/-- The `toPublicAssetUrl` function (identical in both variants of `api.ts`):
`if (!path) return null; return buildApiUrl(path)`.  The URL builder of
the enclosing variant is passed as `build`; `none` embeds both
`undefined` and `null`, and the empty list embeds the falsy empty
string. -/
def toPublicAssetUrl (build : Str → Str) (path : Option Str) : Option Str :=
  match path with
  | none => none
  | some [] => none
  | some p => some (build p)

/-- The `ApiError` class of `api.ts`: a message plus the optional HTTP
status it was raised with. -/
structure ApiError where
  message : Str
  status : Option Nat
deriving DecidableEq

/-- An HTTP response as seen by `fetch`: its status code, its parsed
JSON body, and the text `readError` would extract from it. -/
structure HttpResponse (α : Type) where
  statusCode : Nat
  body : α
  detailText : Str

/-- Embeds `Response.ok`: the status code lies in the 2xx range. -/
def responseOk {α : Type} (r : HttpResponse α) : Bool :=
  decide (200 ≤ r.statusCode) && decide (r.statusCode ≤ 299)

/-- The `requestJson` of `api.ts`: on a non-ok response it throws an
`ApiError` carrying `readError(response)` and `response.status`;
otherwise it returns the parsed body. -/
def requestJson {α : Type} (r : HttpResponse α) : Except ApiError α :=
  if responseOk r then .ok r.body
  else .error ⟨r.detailText, some r.statusCode⟩

/-! ## Wire types (`frontend/src/types/api.ts`) -/

/-- The `VideoJobStatus` union: `"pending" | "running" | "completed" | "failed"`.
The same four values are the backend job statuses of §3 of the spec. -/
inductive JobStatus where
  | pending
  | running
  | completed
  | failed
deriving DecidableEq, BEq

/-- A status is terminal when it is `completed` or `failed` (spec §3). -/
def JobStatus.isTerminal : JobStatus → Bool
  | .completed => true
  | .failed => true
  | _ => false

/-- The `VideoJobResponse` of `types/api.ts` (the fields the poller and the
renderer consult). -/
structure VideoJobResponse where
  job_id : Str
  status : JobStatus
  progress_percent : Nat
  message : Option Str
  quality : Str
  video_file : Option Str
  fetch_url : Option Str
  created_at : Nat
  updated_at : Nat
deriving DecidableEq

/-- The `SubtitlePlaylistProgressResponse`, with the fields the `App`
component copies out of it (`job_id`, `total_videos`, `completed`,
`successful`, `failed`, `in_progress`, `status`, `results`). -/
structure SubtitlePlaylistProgressResponse where
  job_id : Str
  total_videos : Nat
  completed : Nat
  successful : Nat
  failed : Nat
  in_progress : Nat
  status : JobStatus
  results : List Str
deriving DecidableEq

/-! ## The `App` component's video poller

`startVideoPolling` installs `window.setInterval(() => fetchVideoStatus(jobId), 2000)`;
`fetchVideoStatus` updates the component state from one poll result.  The
relevant component state is embedded as a record: whether the interval is
installed (`videoPollRef.current` non-null), the last `videoJob` response,
the `videoStatus` banner, and the pushed toasts. -/

/-- The toast kinds of `useToast`. -/
inductive ToastType where
  | success
  | error
  | info
deriving DecidableEq

/-- The `type` field of the `videoStatus` banner:
`"success" | "error" | "loading"`. -/
inductive VideoStatusTone where
  | success
  | error
  | loading
deriving DecidableEq

/-- The `videoStatus` banner value: a tone plus a message. -/
structure VideoStatusMsg where
  tone : VideoStatusTone
  message : Str
deriving DecidableEq

/-- The slice of `App` component state that `fetchVideoStatus` touches. -/
structure AppVideoState where
  polling : Bool
  videoJob : Option VideoJobResponse
  videoStatus : Option VideoStatusMsg
  toasts : List (ToastType × Str)
deriving DecidableEq

/-- The period, in milliseconds, of the `setInterval` installed by
`startVideoPolling`. -/
def videoPollIntervalMs : Nat := 2000

/-- Embeds `stopVideoPolling`: clears the interval and nulls the ref. -/
def stopVideoPolling (s : AppVideoState) : AppVideoState :=
  { s with polling := false }

/-- Default message `"Video is ready"` (the English half of the `tr` call). -/
def msgVideoReady : Str :=
  ['V', 'i', 'd', 'e', 'o', ' ', 'i', 's', ' ', 'r', 'e', 'a', 'd', 'y']

/-- Toast `"Video ready. You can download it now."` abbreviated to its
role; the exact rendered text is irrelevant to the claims. -/
def msgVideoDoneToast : Str :=
  ['V', 'i', 'd', 'e', 'o', ' ', 'r', 'e', 'a', 'd', 'y']

/-- Default message `"Video download failed"`. -/
def msgVideoFailed : Str :=
  ['V', 'i', 'd', 'e', 'o', ' ', 'd', 'o', 'w', 'n', 'l', 'o', 'a', 'd',
   ' ', 'f', 'a', 'i', 'l', 'e', 'd']

/-- Default message `"Video is processing..."`. -/
def msgVideoProcessing : Str :=
  ['V', 'i', 'd', 'e', 'o', ' ', 'i', 's', ' ', 'p', 'r', 'o', 'c', 'e',
   's', 's', 'i', 'n', 'g']

/-- One step of `fetchVideoStatus`: the argument `r` is the outcome of
`requestJson<VideoJobResponse>("/api/videos/status/" + jobId)` — a body on
a 2xx response, a thrown `ApiError` otherwise.  The `try` branch stores
the body with `setVideoJob`, then stops polling with a success banner on
`completed`, stops polling with an error banner on `failed`, and keeps the
interval with a loading banner on any other status; the `catch` branch
stops polling and shows the error's message (leaving `videoJob` as it
was). -/
def fetchVideoStatusStep (s : AppVideoState)
    (r : Except ApiError VideoJobResponse) : AppVideoState :=
  match r with
  | .ok data =>
    let s1 := { s with videoJob := some data }
    if data.status = .completed then
      let s2 := stopVideoPolling s1
      { s2 with
        videoStatus := some ⟨.success, data.message.getD msgVideoReady⟩,
        toasts := s2.toasts ++ [(.success, msgVideoDoneToast)] }
    else if data.status = .failed then
      let s2 := stopVideoPolling s1
      { s2 with
        videoStatus := some ⟨.error, data.message.getD msgVideoFailed⟩,
        toasts := s2.toasts ++ [(.error, data.message.getD msgVideoFailed)] }
    else
      { s1 with
        videoStatus := some ⟨.loading, data.message.getD msgVideoProcessing⟩ }
  | .error e =>
    let s2 := stopVideoPolling s
    { s2 with
      videoStatus := some ⟨.error, e.message⟩,
      toasts := s2.toasts ++ [(.error, e.message)] }

/-! ## The `App` component's playlist-progress poller -/

/-- The slice of `App` state that `fetchPlaylistProgress` touches:
`playlistProgress`, whether `playlistPollingInterval` is installed,
`isSubmitting`, and the toasts. -/
structure PlaylistPollState where
  playlistProgress : Option SubtitlePlaylistProgressResponse
  polling : Bool
  isSubmitting : Bool
  toasts : List (ToastType × Str)
deriving DecidableEq

/-- Toast `"Playlist subtitle download completed!"`. -/
def msgPlaylistDone : Str :=
  ['P', 'l', 'a', 'y', 'l', 'i', 's', 't', ' ', 'd', 'o', 'n', 'e']

/-- One step of `fetchPlaylistProgress`: on a body it stores the progress,
and when its status is `completed` or `failed` it clears the interval and
the submitting flag (plus a success toast on `completed`); on any thrown
error it clears the interval and the submitting flag. -/
def fetchPlaylistProgressStep (s : PlaylistPollState)
    (r : Except ApiError SubtitlePlaylistProgressResponse) : PlaylistPollState :=
  match r with
  | .ok progress =>
    let s1 := { s with playlistProgress := some progress }
    if progress.status = .completed ∨ progress.status = .failed then
      let s2 := { s1 with polling := false, isSubmitting := false }
      if progress.status = .completed then
        { s2 with toasts := s2.toasts ++ [(.success, msgPlaylistDone)] }
      else s2
    else s1
  | .error _ =>
    { s with polling := false, isSubmitting := false }

/-! ## Language-input handling in `App`

`parsedLanguages` and `handleAppendLanguage` both split `languageInput`
with `.split(/[,\\s]+/)`.  Inside a regex literal `\\` is an escaped
backslash, so the character class matches a comma, a backslash, or the
letter `s` — not whitespace (the UI label reads "Subtitle languages
(comma or space separated)").  The `+` quantifier merges adjacent
separators into one split point; because both call sites immediately
`.map(trim).filter(Boolean)`, splitting at every separator character and
discarding the empty pieces afterwards yields the same token list, which
is how the split is embedded here. -/

/-- Membership in the character class `[,\\s]` of the source regex
`/[,\\s]+/`: a comma, a backslash, or the letter `s`. -/
def isLangSep (c : Char) : Bool :=
  c == ',' || c == '\\' || c == 's'

/-- Split at every character of the class `[,\\s]`; adjacent separators
leave empty pieces that the caller's `filter(Boolean)` discards, matching
the `+` quantifier of the source regex. -/
def splitOnSeps : Str → List Str
  | [] => [[]]
  | c :: rest =>
    let r := splitOnSeps rest
    if isLangSep c then [] :: r
    else
      match r with
      | [] => [[c]]
      | t :: ts => (c :: t) :: ts

/-- Embeds `String.prototype.trim()` restricted to the whitespace that can occur
here. -/
def trimStr (s : Str) : Str :=
  ((s.dropWhile Char.isWhitespace).reverse.dropWhile Char.isWhitespace).reverse

/-- Embeds `languageInput.split(/[,\\s]+/).map(l => l.trim()).filter(Boolean)` —
the token list used both by the `parsedLanguages` memo and by
`handleAppendLanguage`. -/
def parsedLanguages (languageInput : Str) : List Str :=
  ((splitOnSeps languageInput).map trimStr).filter (fun t => !t.isEmpty)

/-- The separator `", "`. -/
def commaSpace : Str := [',', ' ']

/-- Embeds `handleAppendLanguage(language)` acting on `form.languageInput`: if
`language` is already among the parsed tokens the form is returned
unchanged; otherwise the token list with `language` appended is re-joined
with `", "`. -/
def handleAppendLanguage (language : Str) (languageInput : Str) : Str :=
  let existing := parsedLanguages languageInput
  if existing.contains language then languageInput
  else List.intercalate commaSpace (existing ++ [language])

/-! ## Rendering of the fetch-video link in `App` -/

/-- The result card renders the "Fetch video" anchor only inside the
`videoJob.status === "completed" && (...)` block and behind the
`videoJob.fetch_url && (...)` guard (truthiness: non-null and
non-empty). -/
def renderFetchLink (j : VideoJobResponse) : Bool :=
  decide (j.status = .completed) &&
    (match j.fetch_url with
     | some u => !u.isEmpty
     | none => false)

/-! ## Spec-modelled backend: Job Store, Runner wiring, aggregator,
Status Endpoint

The backend service the specification describes (§3–§4.5, §6) is not
among the checked sources; the definitions below are modelled from the
specification's words. -/

/-- Modelled from the spec: the Job record of §3 — `status`,
`progress_percent` (integer 0–100), optional `message`, `result` set only
on completion, `error` set only on failure, and the two timestamps. -/
structure Job where
  status : JobStatus
  progress_percent : Nat
  message : Option Str
  result : Option Str
  error : Option Str
  quality : Str
  created_at : Nat
  updated_at : Nat
deriving DecidableEq

/-- Modelled from the spec: the Job Store of §4.1, a mapping from job
identifiers to Job records. -/
def Store : Type := Nat → Option Job

/-- Modelled from the spec: the error taxonomy of §7 relevant to the Job
Store — `NotFoundError`, `InvalidTransitionError`, `CapacityError`. -/
inductive StoreError where
  | notFound
  | invalidTransition
  | capacity
deriving DecidableEq

/-- Modelled from the spec: `update(job_id, partial_fields)` of §4.1 —
atomically merges fields (`f`) into the stored record and refreshes
`updated_at`; fails with `NotFoundError` if the id is missing and with
`InvalidTransitionError` if the record is already in a terminal state. -/
def updateStore (st : Store) (id : Nat) (f : Job → Job) (now : Nat) :
    Except StoreError Store :=
  match st id with
  | none => .error .notFound
  | some j =>
    if j.status.isTerminal then .error .invalidTransition
    else .ok fun k => if k = id then some { f j with updated_at := now } else st k

/-- Modelled from the spec: the Runner's progress wiring of §4.3 —
`on_progress(percent, message)` becomes
`update(status=running, progress_percent=..., message=...)`. -/
def progressUpdate (p : Nat) (m : Str) (j : Job) : Job :=
  { j with status := .running, progress_percent := p, message := some m }

/-- Modelled from the spec: the Runner's success completion of §4.3/§8 —
the single terminal update to `completed`, forcing `progress_percent` to
100 and recording the result payload. -/
def completeUpdate (res : Str) (j : Job) : Job :=
  { j with status := .completed, progress_percent := 100, result := some res }

/-- Modelled from the spec: the Runner's failure path of §4.2/§7 — the
terminal update to `failed`, recording the `DownloadError` cause and
freezing `progress_percent` at its last value. -/
def failUpdate (cause : Str) (j : Job) : Job :=
  { j with status := .failed, error := some cause }

/-- Modelled from the spec: the Runner of §4.2 emits its progress events
sequentially, and each one is applied to the Job Store atomically
(§5); `runnerTrace` returns the successive store states a poller can
observe after each callback.  A store-level failure aborts the run. -/
def runnerTrace (st : Store) (id : Nat) : List (Nat × Str) → List Store
  | [] => []
  | (p, m) :: rest =>
    match updateStore st id (progressUpdate p m) 0 with
    | .ok st1 => st1 :: runnerTrace st1 id rest
    | .error _ => []

/-- Modelled from the spec: the `PlaylistJob` aggregate record of §3. -/
structure PlaylistAggregate where
  total : Nat
  completed_count : Nat
  successful_count : Nat
  failed_count : Nat
  status : JobStatus
deriving DecidableEq

/-- Modelled from the spec: the derived aggregate status of §3 — pending
if no child has started, running if any child is non-terminal, completed
once all children are terminal. -/
def aggregateStatus (children : List JobStatus) : JobStatus :=
  if children.all (fun c => c == .pending) then .pending
  else if children.any (fun c => !c.isTerminal) then .running
  else .completed

/-- Modelled from the spec: the Playlist Progress Aggregator of §4.5 —
folds the child job statuses into the derived counts of §3 on each
poll. -/
def aggregate (children : List JobStatus) : PlaylistAggregate :=
  { total := children.length
    completed_count := children.countP (fun c => c.isTerminal)
    successful_count := children.countP (fun c => c == .completed)
    failed_count := children.countP (fun c => c == .failed)
    status := aggregateStatus children }

/-- Modelled from the spec: the fetch URL `/api/videos/fetch/{job_id}`
of §6 computed by the Status Endpoint from the job identifier. -/
def fetchUrlFor (id : Str) : Str :=
  ['/', 'a', 'p', 'i', '/', 'v', 'i', 'd', 'e', 'o', 's', '/', 'f', 'e',
   't', 'c', 'h', '/'] ++ id

/-- Modelled from the spec: the Status Endpoint of §4.4/§6 — a pure
projection of a Job snapshot into the wire shape, with `fetch_url`
present only when `status = completed`. -/
def toWireSnapshot (id : Str) (j : Job) : VideoJobResponse :=
  { job_id := id
    status := j.status
    progress_percent := j.progress_percent
    message := j.message
    quality := j.quality
    video_file := j.result
    fetch_url := if j.status = .completed then some (fetchUrlFor id) else none
    created_at := j.created_at
    updated_at := j.updated_at }

/-! ## Concrete sample values used to instantiate the theorems -/

/-- A freshly created job record (status `pending`, progress 0). -/
def jobPending : Job :=
  { status := .pending
    progress_percent := 0
    message := none
    result := none
    error := none
    quality := ['7', '2', '0', 'p']
    created_at := 0
    updated_at := 0 }

/-- A store holding the single pending job under identifier 0. -/
def store1 : Store := fun k => if k = 0 then some jobPending else none

/-- A completed wire snapshot with a fetch URL. -/
def wireCompleted : VideoJobResponse :=
  { job_id := ['j']
    status := .completed
    progress_percent := 100
    message := none
    quality := ['7', '2', '0', 'p']
    video_file := some ['v']
    fetch_url := some ['u']
    created_at := 0
    updated_at := 1 }

/-- A failed wire snapshot. -/
def wireFailed : VideoJobResponse :=
  { wireCompleted with status := .failed, fetch_url := none }

/-- An `App` state in which the video poller is active. -/
def statePolling : AppVideoState :=
  { polling := true, videoJob := none, videoStatus := none, toasts := [] }

/-- A playlist-poller state mid-submission. -/
def playlistStatePolling : PlaylistPollState :=
  { playlistProgress := none, polling := true, isSubmitting := true, toasts := [] }

/-- A completed playlist progress body. -/
def playlistCompleted : SubtitlePlaylistProgressResponse :=
  { job_id := ['p']
    total_videos := 3
    completed := 3
    successful := 2
    failed := 1
    in_progress := 0
    status := .completed
    results := [] }

/-- A 404 response as returned for an unknown job identifier. -/
def responseNotFound : HttpResponse VideoJobResponse :=
  { statusCode := 404, body := wireFailed, detailText := ['n', 'f'] }

/-! ## Helper lemmas -/

/-- A case-insensitive prefix match survives appending to the tested
string. -/
theorem prefixOfCI_append (pre : Str) :
    ∀ {s : Str} (t : Str), prefixOfCI pre s = true → prefixOfCI pre (s ++ t) = true := by
  induction pre with
  | nil => intro s t _; simp [prefixOfCI]
  | cons a as ih =>
    intro s t h
    cases s with
    | nil => simp [prefixOfCI] at h
    | cons b bs =>
      simp only [prefixOfCI, Bool.and_eq_true] at h
      simp only [List.cons_append, prefixOfCI, Bool.and_eq_true]
      exact ⟨h.1, ih t h.2⟩

/-- The scheme test survives appending to the tested string. -/
theorem matchesHttp_append {s : Str} (t : Str) (h : matchesHttp s = true) :
    matchesHttp (s ++ t) = true := by
  simp only [matchesHttp, Bool.or_eq_true] at h ⊢
  rcases h with h | h
  · exact Or.inl (prefixOfCI_append _ t h)
  · exact Or.inr (prefixOfCI_append _ t h)

/-- A string beginning with `/` never passes the scheme test. -/
theorem matchesHttp_slash_cons (r : Str) : matchesHttp ('/' :: r) = false := by
  have h1 : charEqCI 'h' '/' = false := by decide
  simp [matchesHttp, httpPat, httpsPat, prefixOfCI, h1]

/-- The function `ensureLeadingSlash` always yields a string beginning with `/`. -/
theorem ensureLeadingSlash_eq_slash_cons (p : Str) :
    ∃ r, ensureLeadingSlash p = '/' :: r := by
  by_cases h : p.head? = some '/'
  · cases p with
    | nil => simp at h
    | cons c cs =>
      simp only [List.head?_cons, Option.some.injEq] at h
      subst h
      exact ⟨cs, by simp [ensureLeadingSlash]⟩
  · exact ⟨p, by simp [ensureLeadingSlash, h]⟩

/-- The function `ensureLeadingSlash` never shortens its argument. -/
theorem length_le_ensureLeadingSlash (p : Str) :
    p.length ≤ (ensureLeadingSlash p).length := by
  unfold ensureLeadingSlash
  split <;> simp

/-- The function `ensureLeadingSlash` is idempotent. -/
theorem ensureLeadingSlash_idem (p : Str) :
    ensureLeadingSlash (ensureLeadingSlash p) = ensureLeadingSlash p := by
  obtain ⟨r, hr⟩ := ensureLeadingSlash_eq_slash_cons p
  rw [hr]
  simp [ensureLeadingSlash]

/-- Joining the stripped base with a `/`-headed tail only ever extends
the original base: the slash removed by `stripTrailingSlash` (when any)
is put back by the leading slash of the tail. -/
theorem stripTrailingSlash_append_slash (s r : Str) :
    ∃ q, stripTrailingSlash s ++ ('/' :: r) = s ++ q := by
  induction s with
  | nil => exact ⟨'/' :: r, rfl⟩
  | cons c rest ih =>
    cases rest with
    | nil =>
      by_cases hc : c = '/'
      · subst hc
        exact ⟨r, by simp [stripTrailingSlash]⟩
      · exact ⟨'/' :: r, by simp [stripTrailingSlash, hc]⟩
    | cons c2 rest2 =>
      obtain ⟨q, hq⟩ := ih
      exact ⟨q, by simp [stripTrailingSlash, hq]⟩

/-- A chain of `≤` steps over the naturals sorts the whole list. -/
theorem chain_le_sorted {l : List Nat} (h : List.Chain' (· ≤ ·) l) :
    List.Sorted (· ≤ ·) l :=
  List.chain'_iff_pairwise.mp h

/-! ## Claim theorems -/

/-- C1: a job in a non-terminal state admits exactly one terminal
transition — the first terminal update succeeds and records the new
state, after which every further mutation attempt (a second completion
or failure in particular) is rejected with `InvalidTransitionError` and
the stored terminal state still reflects only the first transition. -/
theorem terminal_transition_once
    (st : Store) (id : Nat) (j : Job) (f1 : Job → Job) (now1 : Nat)
    (hmem : st id = some j) (hnt : j.status.isTerminal = false)
    (hterm : (f1 j).status.isTerminal = true) :
    updateStore st id f1 now1 =
      .ok (fun k => if k = id then some { f1 j with updated_at := now1 } else st k)
    ∧ (fun k => if k = id then some { f1 j with updated_at := now1 } else st k) id
        = some { f1 j with updated_at := now1 }
    ∧ ∀ (g : Job → Job) (now2 : Nat),
        updateStore
          (fun k => if k = id then some { f1 j with updated_at := now1 } else st k)
          id g now2 = .error .invalidTransition := by
  refine ⟨?_, by simp, ?_⟩
  · simp [updateStore, hmem, hnt]
  · intro g now2
    simp [updateStore, hterm]

/-- C1 witness: completing the pending job of `store1` succeeds once and
a subsequent failure attempt is rejected. -/
theorem terminal_transition_once_witness :
    updateStore store1 0 (completeUpdate ['v']) 1 =
      .ok (fun k =>
        if k = 0 then some { completeUpdate ['v'] jobPending with updated_at := 1 }
        else store1 k)
    ∧ updateStore
        (fun k =>
          if k = 0 then some { completeUpdate ['v'] jobPending with updated_at := 1 }
          else store1 k)
        0 (failUpdate ['e']) 2 = .error .invalidTransition := by
  have h := terminal_transition_once store1 0 jobPending (completeUpdate ['v']) 1
    rfl rfl rfl
  exact ⟨h.1, h.2.2 (failUpdate ['e']) 2⟩

/-- C2: the video poller re-queries on a 2000 ms `setInterval`, and a
2xx poll body stops the interval exactly when its status is terminal
(`completed` or `failed`); on `pending`/`running` polling continues. -/
theorem video_poll_two_seconds_until_terminal
    (s : AppVideoState) (data : VideoJobResponse) (hp : s.polling = true) :
    videoPollIntervalMs = 2000
    ∧ ((fetchVideoStatusStep s (.ok data)).polling = false
        ↔ data.status = .completed ∨ data.status = .failed) := by
  refine ⟨rfl, ?_⟩
  cases hst : data.status <;>
    simp [fetchVideoStatusStep, stopVideoPolling, hst, hp]

/-- C2 witness: a completed snapshot stops the active poller. -/
theorem video_poll_two_seconds_until_terminal_witness :
    videoPollIntervalMs = 2000
    ∧ ((fetchVideoStatusStep statePolling (.ok wireCompleted)).polling = false
        ↔ wireCompleted.status = .completed ∨ wireCompleted.status = .failed) :=
  video_poll_two_seconds_until_terminal statePolling wireCompleted rfl

/-- C3: a non-2xx poll response makes `requestJson` throw an `ApiError`
carrying the HTTP status instead of returning a body; the poller's catch
branch then stops the interval and sets an error banner while leaving
`videoJob` untouched — unlike the 2xx branch for a body reporting status
`failed`, which stores that body in `videoJob` (and also stops the
interval). -/
theorem http_error_is_terminal_local_failure
    {α : Type} (r : HttpResponse α) (s : AppVideoState) (e : ApiError)
    (data : VideoJobResponse)
    (hbad : responseOk r = false) (hfail : data.status = .failed) :
    requestJson r = .error ⟨r.detailText, some r.statusCode⟩
    ∧ (fetchVideoStatusStep s (.error e)).polling = false
    ∧ (fetchVideoStatusStep s (.error e)).videoStatus = some ⟨.error, e.message⟩
    ∧ (fetchVideoStatusStep s (.error e)).videoJob = s.videoJob
    ∧ (fetchVideoStatusStep s (.ok data)).videoJob = some data
    ∧ (fetchVideoStatusStep s (.ok data)).polling = false := by
  refine ⟨?_, rfl, rfl, rfl, ?_, ?_⟩
  · simp [requestJson, hbad]
  · simp [fetchVideoStatusStep, stopVideoPolling, hfail]
  · simp [fetchVideoStatusStep, stopVideoPolling, hfail]

/-- C3 witness: a 404 status poll produces the thrown `ApiError` and the
terminal local-failure state, distinct from the `failed`-body path. -/
theorem http_error_is_terminal_local_failure_witness :
    requestJson responseNotFound =
      .error ⟨responseNotFound.detailText, some responseNotFound.statusCode⟩
    ∧ (fetchVideoStatusStep statePolling (.error ⟨['n', 'f'], some 404⟩)).polling = false
    ∧ (fetchVideoStatusStep statePolling (.error ⟨['n', 'f'], some 404⟩)).videoStatus
        = some ⟨.error, ['n', 'f']⟩
    ∧ (fetchVideoStatusStep statePolling (.error ⟨['n', 'f'], some 404⟩)).videoJob
        = statePolling.videoJob
    ∧ (fetchVideoStatusStep statePolling (.ok wireFailed)).videoJob = some wireFailed
    ∧ (fetchVideoStatusStep statePolling (.ok wireFailed)).polling = false :=
  http_error_is_terminal_local_failure responseNotFound statePolling
    ⟨['n', 'f'], some 404⟩ wireFailed (by decide) rfl

/-- C4: in the playlist poller a thrown progress-fetch error (transport
failure or 404) clears the polling interval and the submitting flag
exactly as a response body with status `completed` does. -/
theorem playlist_error_like_completed
    (s : PlaylistPollState) (e : ApiError)
    (pr : SubtitlePlaylistProgressResponse) (hc : pr.status = .completed) :
    (fetchPlaylistProgressStep s (.error e)).polling = false
    ∧ (fetchPlaylistProgressStep s (.error e)).isSubmitting = false
    ∧ (fetchPlaylistProgressStep s (.ok pr)).polling = false
    ∧ (fetchPlaylistProgressStep s (.ok pr)).isSubmitting = false := by
  refine ⟨rfl, rfl, ?_, ?_⟩ <;> simp [fetchPlaylistProgressStep, hc]

/-- C4 witness: the error and completed outcomes on a concrete
mid-submission state. -/
theorem playlist_error_like_completed_witness :
    (fetchPlaylistProgressStep playlistStatePolling (.error ⟨['x'], none⟩)).polling = false
    ∧ (fetchPlaylistProgressStep playlistStatePolling (.error ⟨['x'], none⟩)).isSubmitting = false
    ∧ (fetchPlaylistProgressStep playlistStatePolling (.ok playlistCompleted)).polling = false
    ∧ (fetchPlaylistProgressStep playlistStatePolling (.ok playlistCompleted)).isSubmitting = false :=
  playlist_error_like_completed playlistStatePolling ⟨['x'], none⟩ playlistCompleted rfl

/-- C5: a runner whose progress callbacks carry non-decreasing
percentages bounded by 100 produces a store trace whose successive
snapshots show exactly those percentages — hence sequential polls
observe a non-decreasing `progress_percent` sequence within 0–100. -/
theorem progress_monotonic
    (st : Store) (id : Nat) (j : Job) (events : List (Nat × Str))
    (hmem : st id = some j) (hnt : j.status.isTerminal = false)
    (hchain : List.Chain' (· ≤ ·) (events.map Prod.fst))
    (hle : ∀ e ∈ events, e.1 ≤ 100) :
    ((runnerTrace st id events).map fun s => (s id).map Job.progress_percent)
        = events.map (fun e => some e.1)
    ∧ List.Sorted (· ≤ ·) (events.map Prod.fst)
    ∧ ∀ s ∈ runnerTrace st id events, ∀ j2, s id = some j2 →
        j2.progress_percent ≤ 100 := by
  have main : ∀ (events : List (Nat × Str)) (st : Store) (j : Job),
      st id = some j → j.status.isTerminal = false →
      (∀ e ∈ events, e.1 ≤ 100) →
      ((runnerTrace st id events).map fun s => (s id).map Job.progress_percent)
          = events.map (fun e => some e.1)
      ∧ ∀ s ∈ runnerTrace st id events, ∀ j2, s id = some j2 →
          j2.progress_percent ≤ 100 := by
    intro events
    induction events with
    | nil =>
      intro st j _ _ _
      simp [runnerTrace]
    | cons e rest ih =>
      intro st j hmem2 hnt2 hle2
      obtain ⟨p, m⟩ := e
      have hstep : updateStore st id (progressUpdate p m) 0 =
          .ok fun k =>
            if k = id then some { progressUpdate p m j with updated_at := 0 }
            else st k := by
        simp [updateStore, hmem2, hnt2]
      have hmem1 :
          (fun k =>
            if k = id then some { progressUpdate p m j with updated_at := 0 }
            else st k) id = some { progressUpdate p m j with updated_at := 0 } := by
        simp
      have hrec := ih
        (fun k =>
          if k = id then some { progressUpdate p m j with updated_at := 0 }
          else st k)
        { progressUpdate p m j with updated_at := 0 }
        hmem1 rfl (fun e2 he2 => hle2 e2 (List.mem_cons_of_mem _ he2))
      rw [runnerTrace, hstep]
      constructor
      · simp only [List.map_cons]
        rw [hrec.1]
        rfl
      · intro s hs j2 hsj
        rcases List.mem_cons.mp hs with h | h
        · subst h
          rw [hmem1] at hsj
          injection hsj with h2
          rw [← h2]
          exact hle2 (p, m) (List.mem_cons_self _ _)
        · exact hrec.2 s h j2 hsj
  obtain ⟨h1, h2⟩ := main events st j hmem hnt hle
  exact ⟨h1, chain_le_sorted hchain, h2⟩

/-- C5 witness: the `(30, …), (70, …)` runner of the spec's scenario
produces the snapshot percentages `30, 70` in order. -/
theorem progress_monotonic_witness :
    ((runnerTrace store1 0 [(30, ['d']), (70, ['m'])]).map fun s =>
        (s 0).map Job.progress_percent) = [some 30, some 70]
    ∧ List.Sorted (· ≤ ·) [30, 70] := by
  have h := progress_monotonic store1 0 jobPending [(30, ['d']), (70, ['m'])]
    rfl rfl (by simp [List.chain'_cons]) (by decide)
  exact ⟨h.1, h.2.1⟩

/-- C6: the playlist aggregate satisfies
`completed_count = successful_count + failed_count` and
`completed_count ≤ total`, and on child statuses
`[completed, failed, running]` it reports
`total = 3, completed_count = 2, successful_count = 1, failed_count = 1,
status = running`. -/
theorem playlist_aggregate_counts (children : List JobStatus) :
    (aggregate children).completed_count
        = (aggregate children).successful_count + (aggregate children).failed_count
    ∧ (aggregate children).completed_count ≤ (aggregate children).total
    ∧ aggregate [.completed, .failed, .running]
        = { total := 3, completed_count := 2, successful_count := 1,
            failed_count := 1, status := .running } := by
  refine ⟨?_, ?_, by decide⟩
  · simp only [aggregate]
    induction children with
    | nil => simp
    | cons c rest ih =>
      cases c <;> simp only [List.countP_cons, ih] <;>
        simp +decide [JobStatus.isTerminal] <;> omega
  · simp only [aggregate]
    exact List.countP_le_length _

/-- C7: the Status Endpoint attaches `fetch_url` exactly to completed
snapshots (so it is absent after a failure), and the frontend renders
the fetch-video link only for a snapshot that is completed and has a
non-null `fetch_url`. -/
theorem fetch_url_only_when_completed (id : Str) (j : Job) (w : VideoJobResponse) :
    ((toWireSnapshot id j).fetch_url ≠ none ↔ j.status = .completed)
    ∧ (renderFetchLink w = true → w.status = .completed ∧ w.fetch_url ≠ none) := by
  constructor
  · by_cases h : j.status = .completed <;> simp [toWireSnapshot, h]
  · intro hr
    unfold renderFetchLink at hr
    rw [Bool.and_eq_true] at hr
    refine ⟨of_decide_eq_true hr.1, ?_⟩
    cases hu : w.fetch_url with
    | none => rw [hu] at hr; exact absurd hr.2 (by simp)
    | some u => simp [hu]

/-- C7 witness: the pending job carries no `fetch_url`, and the rendered
link on `wireCompleted` certifies a completed status with a non-null
URL. -/
theorem fetch_url_only_when_completed_witness :
    ((toWireSnapshot ['j'] jobPending).fetch_url ≠ none ↔ jobPending.status = .completed)
    ∧ (wireCompleted.status = .completed ∧ wireCompleted.fetch_url ≠ none) := by
  have h := fetch_url_only_when_completed ['j'] jobPending wireCompleted
  exact ⟨h.1, h.2 (by decide)⟩

/-- C8 (amended): `buildApiUrl p` returns `p` unchanged whenever `p`
starts with `http://` or `https://` case-insensitively, and in the first
variant the converse holds as soon as the normalized base is non-empty;
otherwise the result is the normalized base followed by `p` with a
leading slash ensured (just `ensureLeadingSlash p` in the dev-mode
variant, whose base is empty — so there any `p` already starting with
`/` is returned unchanged as well); and `buildApiUrl` is idempotent
whenever the configured base itself passes the scheme test or the
dev-mode variant is used. -/
theorem buildApiUrl_characterization (base p : Str) (b : Option Str) :
    (matchesHttp p = true →
      buildApiUrl base p = p ∧ buildApiUrlV2 true b p = p)
    ∧ (matchesHttp p = false →
      buildApiUrl base p = stripTrailingSlash base ++ ensureLeadingSlash p
        ∧ buildApiUrlV2 true b p = ensureLeadingSlash p)
    ∧ (stripTrailingSlash base ≠ [] →
        (buildApiUrl base p = p ↔ matchesHttp p = true))
    ∧ (matchesHttp base = true →
        buildApiUrl base (buildApiUrl base p) = buildApiUrl base p)
    ∧ buildApiUrlV2 true b (buildApiUrlV2 true b p) = buildApiUrlV2 true b p := by
  refine ⟨fun h => ?_, fun h => ?_, fun hb => ?_, fun hbase => ?_, ?_⟩
  · constructor <;> simp [buildApiUrl, buildApiUrlV2, h]
  · constructor <;> simp [buildApiUrl, buildApiUrlV2, h]
  · constructor
    · intro heq
      by_cases hm : matchesHttp p = true
      · exact hm
      · exfalso
        rw [Bool.not_eq_true] at hm
        rw [buildApiUrl, hm] at heq
        simp only [Bool.false_eq_true, if_false] at heq
        have hlen := congrArg List.length heq
        rw [List.length_append] at hlen
        have h1 : 0 < (stripTrailingSlash base).length := List.length_pos.mpr hb
        have h2 := length_le_ensureLeadingSlash p
        omega
    · intro hm
      simp [buildApiUrl, hm]
  · by_cases hm : matchesHttp p = true
    · simp [buildApiUrl, hm]
    · rw [Bool.not_eq_true] at hm
      obtain ⟨r, hr⟩ := ensureLeadingSlash_eq_slash_cons p
      obtain ⟨q, hq⟩ := stripTrailingSlash_append_slash base r
      have hres : buildApiUrl base p = base ++ q := by
        rw [buildApiUrl, hm]
        simp only [Bool.false_eq_true, if_false]
        rw [hr, hq]
      rw [hres, buildApiUrl, matchesHttp_append q hbase, if_pos rfl, ← hres]
  · by_cases hm : matchesHttp p = true
    · simp [buildApiUrlV2, hm]
    · rw [Bool.not_eq_true] at hm
      obtain ⟨r, hr⟩ := ensureLeadingSlash_eq_slash_cons p
      have hres : buildApiUrlV2 true b p = '/' :: r := by
        simp [buildApiUrlV2, hm, hr]
      rw [hres, buildApiUrlV2, matchesHttp_slash_cons r]
      simp [ensureLeadingSlash]

/-- C8 witness: the characterization applied to the default base and
concrete paths. -/
theorem buildApiUrl_characterization_witness :
    buildApiUrl defaultBase ['H', 'T', 'T', 'P', ':', '/', '/', 'x']
        = ['H', 'T', 'T', 'P', ':', '/', '/', 'x']
    ∧ (buildApiUrl defaultBase ['/', 'a'] = ['/', 'a']
        ↔ matchesHttp ['/', 'a'] = true)
    ∧ buildApiUrl defaultBase (buildApiUrl defaultBase ['/', 'a'])
        = buildApiUrl defaultBase ['/', 'a'] := by
  have h1 := buildApiUrl_characterization defaultBase
    ['H', 'T', 'T', 'P', ':', '/', '/', 'x'] none
  have h2 := buildApiUrl_characterization defaultBase ['/', 'a'] none
  exact ⟨(h1.1 (by decide)).1, h2.2.2.1 (by decide), h2.2.2.2.1 (by decide)⟩

/-- C8 counterexample: in the dev-mode variant `buildApiUrl "/api"`
returns `"/api"` unchanged although `"/api"` does not start with
`http://` or `https://`, so "returns p unchanged only if p starts with
http:// or https://" fails as stated. -/
theorem buildApiUrl_unchanged_without_scheme :
    buildApiUrlV2 true none ['/', 'a', 'p', 'i'] = ['/', 'a', 'p', 'i']
    ∧ matchesHttp ['/', 'a', 'p', 'i'] = false := by
  decide

/-- C9: `toPublicAssetUrl` returns `null` exactly when its argument is
`undefined`/`null` (embedded as `none`) or the empty string, and
otherwise returns the enclosing variant's `buildApiUrl` applied to the
argument. -/
theorem toPublicAssetUrl_null_iff (build : Str → Str) (path : Option Str) :
    (toPublicAssetUrl build path = none ↔ path = none ∨ path = some [])
    ∧ ∀ p : Str, path = some p → p ≠ [] →
        toPublicAssetUrl build path = some (build p) := by
  constructor
  · cases path with
    | none => simp [toPublicAssetUrl]
    | some p =>
      cases p with
      | nil => simp [toPublicAssetUrl]
      | cons c cs => simp [toPublicAssetUrl]
  · intro p hp hne
    subst hp
    cases p with
    | nil => exact absurd rfl hne
    | cons c cs => rfl

/-- C9 witness: an empty-string path yields no link, a non-empty one is
routed through `buildApiUrl`. -/
theorem toPublicAssetUrl_null_iff_witness :
    (toPublicAssetUrl (buildApiUrl defaultBase) (some []) = none
      ↔ (some ([] : Str) = none ∨ some ([] : Str) = some []))
    ∧ toPublicAssetUrl (buildApiUrl defaultBase) (some ['v'])
        = some (buildApiUrl defaultBase ['v']) := by
  have h0 := toPublicAssetUrl_null_iff (buildApiUrl defaultBase) (some [])
  have h1 := toPublicAssetUrl_null_iff (buildApiUrl defaultBase) (some ['v'])
  exact ⟨h0.1, h1.2 ['v'] rfl (by decide)⟩

/-- C10: evaluation of `handleAppendLanguage` at the failing input.  The
split regex `/[,\\s]+/` separates on the letter `s` (its class is
comma, backslash, `s` — not whitespace), so after appending `"es"` once
the stored input `"es"` parses to the single token `"e"`; a second
append therefore changes the state to `"e, es"` instead of leaving it
unchanged, and a third produces the duplicate-laden token list
`["e", "e", "e"]`. -/
theorem handleAppendLanguage_regex_slip :
    handleAppendLanguage ['e', 's'] [] = ['e', 's']
    ∧ handleAppendLanguage ['e', 's'] ['e', 's'] = ['e', ',', ' ', 'e', 's']
    ∧ handleAppendLanguage ['e', 's'] ['e', ',', ' ', 'e', 's']
        = ['e', ',', ' ', 'e', ',', ' ', 'e', 's']
    ∧ parsedLanguages ['e', ',', ' ', 'e', ',', ' ', 'e', 's']
        = [['e'], ['e'], ['e']] := by
  decide

end ZYouTube
